import Mathlib

/-!
Verification development for the ISDJOBS aggregation service
(`src/isdjobs-full-project/api/app_v2.py`).

The Python source is shallowly embedded below.  Conventions of the embedding:

* Python `float` money amounts are modelled as exact rationals (`ℚ`); every
  amount appearing in the properties under study is a small integer, where
  rational and IEEE-754 arithmetic coincide.
* JSON payloads are modelled by the inductive type `J`; Python dynamic-typing
  errors (`AttributeError`, `TypeError`) raised while mapping a payload are
  modelled by `Except String`, with the error message recording the kind of
  Python exception.  A function that Python code wraps in `try/except` is
  modelled as total (`Option`/default result).
* External collaborators (the `requests` HTTP client, BeautifulSoup's
  `get_text`, `datetime`, geopy's `Nominatim`/`geodesic`) are passed in as
  explicit capability records (`Ext`, `GeoEnv`); a network fetch is a
  parameter, so "no request issued" is expressed as independence from that
  parameter.
* Strings are ASCII in all properties under study; `Char.toLower` therefore
  agrees with Python's `str.lower`, and the ASCII classes below agree with
  Python's `\s`, `\w`, `[0-9]`, `[a-z]`.
-/

namespace ISDJobs

/-! ### Character classes (ASCII fragments of Python's regex classes) -/

/-- Python `\s` on the ASCII range. -/
def isWs (c : Char) : Bool :=
  c = ' ' || c = '\t' || c = '\n' || c = '\r' || c = '\x0b' || c = '\x0c'

/-- Python `[0-9]`. -/
def isDigitCh (c : Char) : Bool :=
  '0' ≤ c && c ≤ '9'

/-- Python `\w` on the ASCII range (used only for `\b` word boundaries). -/
def isWordCh (c : Char) : Bool :=
  c.isAlphanum || c = '_'

/-- Python `str.lower` on the ASCII range. -/
def lowerStr (s : String) : String :=
  ⟨s.data.map Char.toLower⟩

/-! ### `norm` (line 76): collapse whitespace runs to one space, then strip -/

/-- Collapse every run of whitespace to a single `' '`.  The flag records
whether the previous character was whitespace (mirrors `re.sub(r"\s+", " ", s)`). -/
def collapseWs : Bool → List Char → List Char
  | _, [] => []
  | prevWs, c :: cs =>
    if isWs c then
      if prevWs then collapseWs true cs else ' ' :: collapseWs true cs
    else c :: collapseWs false cs

/-- Python `str.strip()` (ASCII whitespace). -/
def pyStrip (l : List Char) : List Char :=
  ((l.dropWhile isWs).reverse.dropWhile isWs).reverse

/-- `norm` of app_v2.py line 76, applied to an actual string
(the `s or ""` treatment of `None` is handled at the `J` level below). -/
def normWs (s : String) : String :=
  ⟨pyStrip (collapseWs false s.data)⟩

/-! ### Substring containment (Python `needle in hay`) -/

/-- Python's `in` operator on strings, over the underlying character lists. -/
def containsSub : List Char → List Char → Bool
  | hay, needle =>
    if needle.isPrefixOf hay then true
    else
      match hay with
      | [] => false
      | _ :: t => containsSub t needle

/-! ### `valid_board_token` (lines 68, 73-74) -/

/-- The class `[a-z0-9-]` of `TOKEN_RE`. -/
def tokenChar (c : Char) : Bool :=
  ('a' ≤ c && c ≤ 'z') || ('0' ≤ c && c ≤ '9') || c = '-'

/-- `valid_board_token` (line 73): `bool(t) and bool(TOKEN_RE.match(t))` with
`TOKEN_RE = ^[a-z0-9-]+$`.  Python's `$` (without `re.M`) matches at the end of
the string or just before one final newline, so the match succeeds exactly when
a non-empty run of token characters is followed by nothing or by a single
trailing `'\n'`.  (Backtracking the greedy `+` cannot help: any shorter run
leaves a token character after the match position, where `$` fails.) -/
def valid_board_token (t : String) : Bool :=
  let body := t.data.takeWhile tokenChar
  let rest := t.data.dropWhile tokenChar
  decide (body ≠ []) && (decide (rest = []) || decide (rest = ['\n']))

/-! ### Regex machinery for `extract_compensation_annual` (lines 96-129)

The Python code uses `re.search` with the patterns

  money = `\$?\s*([0-9]{2,3}(?:,[0-9]{3})*(?:\.[0-9]+)?)`
  sep   = `\s*(?:-|to|–|—)\s*`

composed into an hourly range, a single hourly value, an annual range, a
single annual value, and two bare keyword patterns, all with `re.I`.
Each matcher below returns the list of possible outcomes in exactly the
backtracking priority order of the Python regex engine (greedy quantifiers
produce their longest alternative first; alternations are tried left to
right), so taking the head of the list at the leftmost matching position
reproduces `re.search`'s match and captures.  Literal letters are compared
case-insensitively (`re.I`). -/

/-- Greedy `\s*`: remainders after consuming the longest, then shorter, runs. -/
def wsStar : List Char → List (List Char)
  | [] => [[]]
  | c :: cs => if isWs c then wsStar cs ++ [c :: cs] else [c :: cs]

/-- Greedy `\$?`. -/
def dollarOpt : List Char → List (List Char)
  | [] => [[]]
  | c :: cs => if c = '$' then [cs, c :: cs] else [c :: cs]

/-- `[0-9]{2,3}` (greedy: three digits before two); returns (capture, rest). -/
def digits23 : List Char → List (List Char × List Char)
  | a :: b :: rest =>
    if isDigitCh a && isDigitCh b then
      match rest with
      | c :: rest2 =>
        if isDigitCh c then [([a, b, c], rest2), ([a, b], c :: rest2)]
        else [([a, b], c :: rest2)]
      | [] => [([a, b], [])]
    else []
  | _ => []

/-- One `,[0-9]{3}` group. -/
def commaGroup : List Char → Option (List Char × List Char)
  | c0 :: a :: b :: c :: rest =>
    if c0 = ',' && isDigitCh a && isDigitCh b && isDigitCh c then
      some ([c0, a, b, c], rest)
    else none
  | _ => none

/-- Greedy `(?:,[0-9]{3})*` (fuel bounds the number of groups). -/
def commaStar : Nat → List Char → List (List Char × List Char)
  | 0, l => [([], l)]
  | fuel + 1, l =>
    match commaGroup l with
    | some (cap, rest) =>
      ((commaStar fuel rest).map fun p => (cap ++ p.1, p.2)) ++ [([], l)]
    | none => [([], l)]

/-- Greedy `[0-9]+`. -/
def digitsPlus : List Char → List (List Char × List Char)
  | [] => []
  | c :: cs =>
    if isDigitCh c then
      ((digitsPlus cs).map fun p => (c :: p.1, p.2)) ++ [([c], cs)]
    else []

/-- Greedy `(?:\.[0-9]+)?`. -/
def decimalOpt (l : List Char) : List (List Char × List Char) :=
  (match l with
   | c :: cs =>
     if c = '.' then (digitsPlus cs).map fun p => (c :: p.1, p.2) else []
   | [] => []) ++ [([], l)]

/-- The full money pattern; returns (group capture, rest) alternatives in
backtracking order.  The capture is the bracketed digit group (without the
optional `$` and whitespace). -/
def moneyM (fuel : Nat) (l : List Char) : List (List Char × List Char) :=
  (dollarOpt l).flatMap fun l1 =>
  (wsStar l1).flatMap fun l2 =>
  (digits23 l2).flatMap fun p =>
  (commaStar fuel p.2).flatMap fun q =>
  (decimalOpt q.2).map fun r => (p.1 ++ q.1 ++ r.1, r.2)

/-- Case-insensitive literal (`re.I`): consume `pat`, comparing lowercased. -/
def litCI : List Char → List Char → Option (List Char)
  | [], l => some l
  | _ :: _, [] => none
  | p :: ps, c :: cs => if c.toLower = p then litCI ps cs else none

/-- `(?:-|to|–|—)`, alternatives in pattern order. -/
def sepCore (l : List Char) : List (List Char) :=
  (litCI ['-'] l).toList ++ (litCI ['t', 'o'] l).toList ++
  (litCI ['–'] l).toList ++ (litCI ['—'] l).toList

/-- The full separator `\s*(?:-|to|–|—)\s*`. -/
def sepM (l : List Char) : List (List Char) :=
  (wsStar l).flatMap fun l1 => (sepCore l1).flatMap wsStar

/-- `\s*/\s*(?:alt₁|alt₂|...)` with the given literal alternatives in order. -/
def slashAlts (alts : List (List Char)) (l : List Char) : List (List Char) :=
  (wsStar l).flatMap fun l1 =>
    match l1 with
    | c :: cs =>
      if c = '/' then
        (wsStar cs).flatMap fun l2 => alts.flatMap fun a => (litCI a l2).toList
      else []
    | [] => []

/-- `(?:hr|hour)`. -/
def hrAlts : List (List Char) := [['h', 'r'], ['h', 'o', 'u', 'r']]

/-- `(?:yr|year|annum|annually|per year)`. -/
def yrAlts : List (List Char) :=
  [['y', 'r'], ['y', 'e', 'a', 'r'], ['a', 'n', 'n', 'u', 'm'],
   ['a', 'n', 'n', 'u', 'a', 'l', 'l', 'y'],
   ['p', 'e', 'r', ' ', 'y', 'e', 'a', 'r']]

/-- Hourly-range pattern at a fixed position: both captures. -/
def hrAt (fuel : Nat) (l : List Char) : List (List Char × List Char) :=
  (moneyM fuel l).flatMap fun p =>
  (sepM p.2).flatMap fun l1 =>
  (moneyM fuel l1).flatMap fun q =>
  (slashAlts hrAlts q.2).map fun _ => (p.1, q.1)

/-- Single hourly value at a fixed position. -/
def hr1At (fuel : Nat) (l : List Char) : List (List Char) :=
  (moneyM fuel l).flatMap fun p => (slashAlts hrAlts p.2).map fun _ => p.1

/-- Annual-range pattern at a fixed position. -/
def yrAt (fuel : Nat) (l : List Char) : List (List Char × List Char) :=
  (moneyM fuel l).flatMap fun p =>
  (sepM p.2).flatMap fun l1 =>
  (moneyM fuel l1).flatMap fun q =>
  (slashAlts yrAlts q.2).map fun _ => (p.1, q.1)

/-- Single annual value at a fixed position. -/
def yr1At (fuel : Nat) (l : List Char) : List (List Char) :=
  (moneyM fuel l).flatMap fun p => (slashAlts yrAlts p.2).map fun _ => p.1

/-- `re.search`: try each start position left to right, and at the first
position where the matcher succeeds take its highest-priority outcome. -/
def searchM {α : Type} (m : List Char → List α) : List Char → Option α
  | [] => (m []).head?
  | c :: cs =>
    match (m (c :: cs)).head? with
    | some a => some a
    | none => searchM m cs

/-! ### Keyword patterns with word boundaries

`\bhourly\b|\b/ ?hr\b` and `\bsalary\b|\bper year\b` (`re.I`).  A `\b` holds
between a word and a non-word character (string ends count as non-word).
These only produce a boolean, so backtracking order is irrelevant. -/

/-- Does the string start (after `prev`) with `word` at a `\b...\b` position? -/
def wordAtBoundary (word : List Char) (prev : Option Char) (l : List Char) : Bool :=
  (match prev with
   | none => true
   | some p => !isWordCh p) &&
  (match litCI word l with
   | none => false
   | some rest =>
     match rest with
     | [] => true
     | c :: _ => !isWordCh c)

/-- `\b/ ?hr\b`: the position before `/` is a boundary only when the previous
character is a word character (`/` itself is non-word). -/
def slashHrAt (prev : Option Char) (l : List Char) : Bool :=
  (match prev with
   | none => false
   | some p => isWordCh p) &&
  (match l with
   | c :: cs =>
     c = '/' &&
     ((match litCI ['h', 'r'] cs with
       | none => false
       | some rest =>
         match rest with
         | [] => true
         | d :: _ => !isWordCh d) ||
      (match cs with
       | ' ' :: cs2 =>
         match litCI ['h', 'r'] cs2 with
         | none => false
         | some rest =>
           match rest with
           | [] => true
           | d :: _ => !isWordCh d
       | _ => false))
   | [] => false)

/-- Boolean `re.search` for patterns that need the preceding character. -/
def searchB (m : Option Char → List Char → Bool) : Option Char → List Char → Bool
  | prev, [] => m prev []
  | prev, c :: cs => m prev (c :: cs) || searchB m (some c) cs

/-- `re.search(r"\bhourly\b|\b/ ?hr\b", t, re.I)` as a boolean. -/
def kwHourly (l : List Char) : Bool :=
  searchB (fun p r => wordAtBoundary "hourly".data p r || slashHrAt p r) none l

/-- `re.search(r"\bsalary\b|\bper year\b", t, re.I)` as a boolean. -/
def kwSalary (l : List Char) : Bool :=
  searchB (fun p r =>
    wordAtBoundary "salary".data p r ||
    wordAtBoundary "per year".data p r) none l

/-! ### `parse_money` (line 87) and the compensation extractor -/

/-- Value of a non-empty all-digit string. -/
def digitsVal (l : List Char) : Option Nat :=
  if l = [] then none
  else if l.all isDigitCh then
    some (l.foldl (fun acc c => acc * 10 + (c.toNat - 48)) 0)
  else none

/-- `parse_money` (line 87): `float(s.replace(",", "").strip())`, modelled on
the sublanguage of float literals that the money captures can produce
(digits with thousands separators and an optional fractional part; the
captures never contain whitespace, signs, exponents, or a bare `.`).
Amounts are exact rationals here. -/
def parse_money (cap : List Char) : Option ℚ :=
  let cs := cap.filter fun c => c ≠ ','
  let ip := cs.takeWhile fun c => c ≠ '.'
  match cs.dropWhile fun c => c ≠ '.' with
  | [] => (digitsVal ip).map fun n => (n : ℚ)
  | _ :: frac =>
    match digitsVal ip, digitsVal frac with
    | some i, some f => some ((i : ℚ) + (f : ℚ) / ((10 : ℚ) ^ frac.length))
    | _, _ => none

/-- `HOURS_PER_YEAR` (line 69). -/
def HOURS_PER_YEAR : ℚ := 2080

/-- `to_annual_from_hourly` (line 93). -/
def to_annual_from_hourly (v : ℚ) : ℚ := v * HOURS_PER_YEAR

/-- Python `min(a, b)`. -/
def pymin (a b : ℚ) : ℚ := if b < a then b else a

/-- Python `max(a, b)`. -/
def pymax (a b : ℚ) : ℚ := if b > a then b else a

/-- Stage (a) of lines 104-107: hourly range matched with both amounts truthy
(Python falls through to the next stage when the regex does not match or
either parsed amount is falsy). -/
def stageHr (fuel : Nat) (l : List Char) : Option (ℚ × ℚ) :=
  match searchM (hrAt fuel) l with
  | none => none
  | some (g1, g2) =>
    match parse_money g1, parse_money g2 with
    | some lo, some hi =>
      if lo ≠ 0 ∧ hi ≠ 0 then some (pymin lo hi, pymax lo hi) else none
    | _, _ => none

/-- Stage (b) of lines 109-112: single hourly value. -/
def stageHr1 (fuel : Nat) (l : List Char) : Option ℚ :=
  match searchM (hr1At fuel) l with
  | none => none
  | some g =>
    match parse_money g with
    | some v => if v ≠ 0 then some v else none
    | none => none

/-- Stage (c) of lines 114-117: annual range. -/
def stageYr (fuel : Nat) (l : List Char) : Option (ℚ × ℚ) :=
  match searchM (yrAt fuel) l with
  | none => none
  | some (g1, g2) =>
    match parse_money g1, parse_money g2 with
    | some lo, some hi =>
      if lo ≠ 0 ∧ hi ≠ 0 then some (pymin lo hi, pymax lo hi) else none
    | _, _ => none

/-- Stage (d) of lines 119-122: single annual value. -/
def stageYr1 (fuel : Nat) (l : List Char) : Option ℚ :=
  match searchM (yr1At fuel) l with
  | none => none
  | some g =>
    match parse_money g with
    | some v => if v ≠ 0 then some v else none
    | none => none

/-- `extract_compensation_annual` (lines 96-129). -/
def extract_compensation_annual (text : String) :
    Option ℚ × Option ℚ × Option String :=
  let l := text.data
  let fuel := l.length
  match stageHr fuel l with
  | some (lo, hi) =>
    (some (to_annual_from_hourly lo), some (to_annual_from_hourly hi), some "hourly")
  | none =>
  match stageHr1 fuel l with
  | some v =>
    (some (to_annual_from_hourly v), some (to_annual_from_hourly v), some "hourly")
  | none =>
  match stageYr fuel l with
  | some (lo, hi) => (some lo, some hi, some "salary")
  | none =>
  match stageYr1 fuel l with
  | some v => (some v, some v, some "salary")
  | none =>
  if kwHourly l then (none, none, some "hourly")
  else if kwSalary l then (none, none, some "salary")
  else (none, none, none)

/-! ### JSON values and Python dynamic semantics

`J` models the values `r.json()` can produce.  Operations that Python
performs on them raise `AttributeError`/`TypeError` on the wrong shapes;
those raises are modelled with `Except String`. -/

inductive J where
  | jnull
  | jbool (b : Bool)
  | jnum (q : ℚ)
  | jstr (s : String)
  | jarr (xs : List J)
  | jobj (fields : List (String × J))

/-- Python truthiness of a JSON value. -/
def jtruthy : J → Bool
  | .jnull => false
  | .jbool b => b
  | .jnum q => decide (q ≠ 0)
  | .jstr s => decide (s ≠ "")
  | .jarr xs => !xs.isEmpty
  | .jobj fs => !fs.isEmpty

/-- Python `a or b`. -/
def pyOr (a b : J) : J := if jtruthy a then a else b

/-- First binding of a key in a JSON object (keys are unique in practice). -/
def lookupJ : List (String × J) → String → Option J
  | [], _ => none
  | (k, v) :: rest, key => if k = key then some v else lookupJ rest key

/-- Python `x.get(key)`: `None` for a missing key, `AttributeError` when the
receiver is not a dict. -/
def jget (x : J) (key : String) : Except String J :=
  match x with
  | .jobj fs => .ok ((lookupJ fs key).getD .jnull)
  | _ => .error "AttributeError: get on non-dict"

/-- Python `x.get(key, default)` (used by `data.get("jobs", [])`): the stored
value is returned even when it is `None`. -/
def jgetD (x : J) (key : String) (dflt : J) : Except String J :=
  match x with
  | .jobj fs => .ok ((lookupJ fs key).getD dflt)
  | _ => .error "AttributeError: get on non-dict"

/-- Python `for item in x`: lists iterate elements, strings iterate their
characters, dicts iterate their keys; other values raise `TypeError`. -/
def pyIter : J → Except String (List J)
  | .jarr xs => .ok xs
  | .jstr s => .ok (s.data.map fun c => .jstr ⟨[c]⟩)
  | .jobj fs => .ok (fs.map fun p => .jstr p.1)
  | _ => .error "TypeError: not iterable"

/-- The string payload of a JSON value, when it is one. -/
def jStr? : J → Option String
  | .jstr s => some s
  | _ => none

/-- `norm` (line 76) applied to a JSON value: `s or ""` maps every falsy value
to `""`; a truthy non-string reaches `re.sub` and raises `TypeError`. -/
def pyNorm (x : J) : Except String String :=
  if jtruthy x then
    match jStr? x with
    | some s => .ok (normWs s)
    | none => .error "TypeError: re.sub on non-string"
  else .ok ""

/-- External collaborators of the adapters. -/
structure Ext where
  /-- BeautifulSoup's `get_text(" ", strip=True)` on a string; with
  `html.parser` this never raises on a `str` input. -/
  getText : String → String
  /-- The `posted_iso` conversion of lines 180-184: the whole
  `int(...)/1000 → utcfromtimestamp → isoformat` block is inside
  `try/except`, so it is total; `none` models the `except` branch. -/
  isoOfCreated : J → Option String

/-- `strip_html` (lines 79-85) on a JSON value: falsy input yields `""`; a
string is handed to BeautifulSoup; a truthy non-string makes BeautifulSoup
raise, and the `except` branch then calls `norm` on it, which raises
`TypeError` out of the function. -/
def strip_html (ext : Ext) (x : J) : Except String String :=
  if jtruthy x then
    match jStr? x with
    | some s => .ok (ext.getText s)
    | none => .error "TypeError: strip_html on truthy non-string"
  else .ok ""

/-- A JSON value stored into a string-typed record slot.  Python would store
the raw value; the embedding's record fields are typed, so a non-string here
is reported as an unmodelled shape (no theorem below depends on this
corner). -/
def jAsStr (x : J) : Except String String :=
  match jStr? x with
  | some s => .ok s
  | none => .error "model: non-string field"

/-! ### The Job record (the dictionaries built at lines 189-203 / 243-257) -/

structure Job where
  source : String := ""
  company : String := ""
  title : String := ""
  location : String := ""
  remote : Bool := false
  url : String := ""
  department : String := ""
  work_type : String := ""
  posted_at : String := ""
  content_html : String := ""
  pay_type : String := ""
  comp_annual_min : Option ℚ := none
  comp_annual_max : Option ℚ := none
deriving DecidableEq

/-- The `remote` derivation shared by both adapters (lines 194, 248):
`"remote" in (location or "").lower()`. -/
def remoteOfLocation (location : String) : Bool :=
  containsSub (lowerStr location).data "remote".data

/-- Mapping of one Lever listing (lines 172-203). -/
def leverItem (ext : Ext) (company : String) (item : J) : Except String Job := do
  let title ← pyNorm (← jget item "text")
  let location ← pyNorm (← jget (pyOr (← jget item "categories") (.jobj [])) "location")
  let department ← pyNorm (← jget (pyOr (← jget item "categories") (.jobj [])) "team")
  let work_type ← pyNorm (← jget (pyOr (← jget item "categories") (.jobj [])) "commitment")
  let urlJ := pyOr (pyOr (← jget item "hostedUrl") (← jget item "applyUrl")) (.jstr "")
  let url ← jAsStr urlJ
  let postedJ ← jget item "createdAt"
  let posted_iso := if jtruthy postedJ then ext.isoOfCreated postedJ else none
  let descJ := pyOr (pyOr (← jget item "description") (← jget item "lists")) (← jget item "additional")
  let stripped ← strip_html ext descJ
  let comps := extract_compensation_annual (String.intercalate " | " [title, department, location, stripped])
  .ok { source := "lever", company := company, title := title,
        location := location,
        remote := remoteOfLocation location,
        url := url,
        department := department, work_type := work_type,
        posted_at := (posted_iso.getD ""),
        content_html := (match descJ with | .jstr s => s | _ => ""),
        pay_type := comps.2.2.getD "",
        comp_annual_min := comps.1, comp_annual_max := comps.2.1 }

/-- The Python `for` loop appending mapped records: the first raising item
aborts the whole call (no partial list escapes, because the exception
propagates out of `fetch_lever`). -/
def mapItems (f : J → Except String Job) : List J → Except String (List Job)
  | [] => .ok []
  | x :: xs => do
    let j ← f x
    let js ← mapItems f xs
    .ok (j :: js)

/-- `fetch_lever` (lines 155-206).  `cached` models a fresh cache entry
(line 160) and `resp` the network interaction: `none` stands for any
exception inside the `try` of lines 164-169 (connection error, timeout,
non-200 via `raise_for_status`, JSON decode failure), all of which return
`[]`; `some data` is a successfully decoded payload.  The cache write at
line 205 mutates state outside the returned value and is not modelled. -/
def fetch_lever (ext : Ext) (company : String) (cached : Option (List Job))
    (resp : Option J) : Except String (List Job) :=
  if !valid_board_token company then .ok []
  else
    match cached with
    | some data => .ok data
    | none =>
      match resp with
      | none => .ok []
      | some data => do
        let items ← pyIter data
        mapItems (leverItem ext company) items

/-- The `departments` generator of line 228: `str.join` first exhausts the
generator (performing the `d.get("name")` calls, whose `AttributeError` on a
non-dict element propagates), keeping the truthy names. -/
def ghDepVals : List J → Except String (List J)
  | [] => .ok []
  | d :: rest => do
    let v ← jget d "name"
    let vs ← ghDepVals rest
    .ok (if jtruthy v then v :: vs else vs)

/-- `", ".join(...)` then raises `TypeError` at the first non-string item. -/
def joinableStrs : List J → Except String (List String)
  | [] => .ok []
  | v :: vs =>
    match jStr? v with
    | some s => do
      let ss ← joinableStrs vs
      .ok (s :: ss)
    | none => .error "TypeError: join on non-string"

/-- The metadata keys of line 232. -/
def ghMetaKeys : List String := ["employment type", "employment_type", "commitment"]

/-- The `work_type` scan over `metadata` (lines 229-236).  The loop body is
wrapped in `try/except: pass`, so a malformed element is skipped; a non-string
`name` value goes through `str(...)` whose rendering (`"None"`, `"True"`,
numeric or container reprs) is never one of the three keys, hence is also
skipped.  A successful `norm` of the value breaks the loop. -/
def ghWorkType : List J → String
  | [] => ""
  | m :: rest =>
    match jget m "name" with
    | .error _ => ghWorkType rest
    | .ok nameV =>
      match nameV with
      | .jstr s =>
        if lowerStr s ∈ ghMetaKeys then
          match (do pyNorm (← jget m "value") : Except String String) with
          | .ok w => w
          | .error _ => ghWorkType rest
        else ghWorkType rest
      | _ => ghWorkType rest

/-- Mapping of one Greenhouse job (lines 225-257). -/
def ghItem (ext : Ext) (company : String) (item : J) : Except String Job := do
  let title ← pyNorm (← jget item "title")
  let location ← pyNorm (← jget (pyOr (← jget item "location") (.jobj [])) "name")
  let depNames ← joinableStrs (← ghDepVals (← pyIter (pyOr (← jget item "departments") (.jarr []))))
  let dep := String.intercalate ", " depNames
  let metaItems ← pyIter (pyOr (← jget item "metadata") (.jarr []))
  let work_type := ghWorkType metaItems
  let url ← jAsStr (pyOr (← jget item "absolute_url") (.jstr ""))
  let posted ← jAsStr (pyOr (pyOr (← jget item "updated_at") (← jget item "created_at")) (.jstr ""))
  let contentJ := pyOr (← jget item "content") (.jstr "")
  let stripped ← strip_html ext contentJ
  let comps := extract_compensation_annual (String.intercalate " | " [title, dep, location, stripped])
  .ok { source := "greenhouse", company := company, title := title,
        location := location,
        remote := remoteOfLocation location,
        url := url,
        department := dep, work_type := work_type,
        posted_at := posted,
        content_html := (match contentJ with | .jstr s => s | _ => ""),
        pay_type := comps.2.2.getD "",
        comp_annual_min := comps.1, comp_annual_max := comps.2.1 }

/-- `fetch_greenhouse` (lines 208-260), with the same conventions as
`fetch_lever`. -/
def fetch_greenhouse (ext : Ext) (company : String) (cached : Option (List Job))
    (resp : Option J) : Except String (List Job) :=
  if !valid_board_token company then .ok []
  else
    match cached with
    | some data => .ok data
    | none =>
      match resp with
      | none => .ok []
      | some data => do
        let jobsJ ← jgetD data "jobs" (.jarr [])
        let items ← pyIter jobsJ
        mapItems (ghItem ext company) items

/-! ### Aggregation (`collect_jobs`, lines 262-275) -/

/-- The de-duplication loop of lines 269-274: `u = j.get("url")`;
`if u and u not in seen: seen.add(u); uniq.append(j)`.  A record whose URL is
empty (falsy) fails the condition and is never appended. -/
def dedupeLoop : List String → List Job → List Job
  | _, [] => []
  | seen, j :: rest =>
    if j.url ≠ "" ∧ j.url ∉ seen then j :: dedupeLoop (j.url :: seen) rest
    else dedupeLoop seen rest

/-- The de-duplication pass of `collect_jobs` on the concatenated adapter
output. -/
def collect_dedupe (out : List Job) : List Job := dedupeLoop [] out

/-- `collect_jobs` (lines 262-275) over already-fetched adapter results:
the Lever lists (in the order of `companies["lever"]`) are concatenated
before the Greenhouse lists, then de-duplicated by URL. -/
def collect_jobs (leverOf ghOf : String → List Job)
    (leverCompanies ghCompanies : List String) : List Job :=
  collect_dedupe (leverCompanies.flatMap leverOf ++ ghCompanies.flatMap ghOf)

/-! ### Search parameters and the filter engine (lines 33-59, 279-344) -/

/-- `DEFAULT_CLEARANCES` (lines 33-37). -/
def DEFAULT_CLEARANCES : List String :=
  ["ts/sci", "ts / sci", "top secret", "ts",
   "sci", "ci poly", "fs poly", "full scope poly",
   "secret", "public trust", "security clearance"]

/-- `DEFAULT_KEYWORDS` (lines 39-45). -/
def DEFAULT_KEYWORDS : List String :=
  ["instructional designer", "instructional systems designer", "learning experience",
   "learning designer", "talent development", "l&d", "training",
   "technical training", "training administration", "technical trainer",
   "course developer", "curriculum designer", "training specialist",
   "learning and development"]

/-- `SearchParams` (lines 47-59); distances and money as exact rationals. -/
structure SearchParams where
  zip : String := "20147"
  radius : ℚ := 50
  include_remote : Bool := true
  require_clearance : Bool := true
  clearances : List String := DEFAULT_CLEARANCES
  salary_min : ℚ := 100000
  salary_max : ℚ := 1000000
  pay_types : List String := ["hourly", "salary"]
  keywords : List String := DEFAULT_KEYWORDS
  latitude : Option ℚ := none
  longitude : Option ℚ := none

/-- The geopy collaborators.  `available` is the line-295 flag
`(geodesic is not None) and (Nominatim is not None)` (both imports stand or
fall together at lines 13-18).  `geocodeZip`/`geocodeLoc` return `none` both
when the provider finds nothing and when it raises (the callers catch every
exception); `distMiles` is `geodesic(...).miles`. -/
structure GeoEnv where
  available : Bool
  geocodeZip : String → Option (ℚ × ℚ)
  geocodeLoc : String → Option (ℚ × ℚ)
  distMiles : ℚ × ℚ → ℚ × ℚ → ℚ

/-- `geocode_zip` (lines 142-151). -/
def geocode_zip (env : GeoEnv) (zip : String) : Option (ℚ × ℚ) :=
  if !env.available then none else env.geocodeZip zip

/-- `inside_radius` (lines 279-290). -/
def inside_radius (env : GeoEnv) (origin : ℚ × ℚ) (locationName : String)
    (radius : ℚ) : Bool :=
  if !env.available then false
  else
    match env.geocodeLoc locationName with
    | none => false
    | some p => decide (env.distMiles origin p ≤ radius)

/-- `title_matches` (lines 131-133). -/
def title_matches (title department : String) (keywords : List String) : Bool :=
  if keywords.isEmpty then true
  else keywords.any fun k =>
    containsSub (lowerStr (title ++ " | " ++ department)).data (lowerStr k).data

/-- `clearance_matches` (lines 135-140). -/
def clearance_matches (texts : List String) (allowList : List String)
    (require : Bool) : Bool :=
  if !require then true
  else
    let joined := String.intercalate " | " ((texts.filter fun t => t ≠ "").map lowerStr)
    let keys := if allowList.isEmpty then DEFAULT_CLEARANCES else allowList
    keys.any fun k => containsSub joined.data (lowerStr k).data

/-- `strip_html` on the string-typed `content_html` field (line 311): a
non-empty string is handed to BeautifulSoup's `get_text`. -/
def strip_html_str (ext : Ext) (s : String) : String :=
  if s = "" then "" else ext.getText s

/-- The origin resolution of lines 294-299: explicit coordinates win;
otherwise the zip is geocoded when geopy is available. -/
def originOf (env : GeoEnv) (p : SearchParams) : Option (ℚ × ℚ) :=
  match p.latitude, p.longitude with
  | some la, some lo => some (la, lo)
  | _, _ => if env.available then geocode_zip env p.zip else none

/-- `skip_radius` (line 301). -/
def skip_radius (env : GeoEnv) (p : SearchParams) : Bool :=
  !env.available || (originOf env p).isNone

/-- The remote/radius stage (lines 317-324). -/
def remote_radius_pass (env : GeoEnv) (p : SearchParams) (j : Job) : Bool :=
  if p.include_remote && j.remote then true
  else if skip_radius env p then true
  else
    match originOf env p with
    | some o => decide (j.location ≠ "") && inside_radius env o j.location p.radius
    | none => true

/-- The pay-type stage (lines 329-333). -/
def pay_type_pass (p : SearchParams) (j : Job) : Bool :=
  let pt := lowerStr j.pay_type
  if ¬p.pay_types.isEmpty ∧ pt ≠ "" ∧ pt ∉ p.pay_types.map lowerStr then false
  else true

/-- The salary-overlap stage (lines 327-328, 335-338). -/
def salary_pass (p : SearchParams) (j : Job) : Bool :=
  match j.comp_annual_min with
  | none => true
  | some lo =>
    let hi := j.comp_annual_max.getD lo
    if hi < p.salary_min ∨ lo > p.salary_max then false else true

/-- The whole per-job filter of the loop at lines 304-340 (`continue` chains
are conjunction). -/
def keep_job (env : GeoEnv) (ext : Ext) (p : SearchParams) (j : Job) : Bool :=
  title_matches j.title j.department p.keywords &&
  clearance_matches [j.title, j.department, j.location, strip_html_str ext j.content_html]
    p.clearances p.require_clearance &&
  remote_radius_pass env p j &&
  pay_type_pass p j &&
  salary_pass p j

/-- The ranking key of line 343:
`(-(comp_annual_min or 0), posted_at or "", company or "")`. -/
def rank_key (j : Job) : ℚ × String × String :=
  (-(j.comp_annual_min.getD 0), j.posted_at, j.company)

/-- Ascending comparison of ranking keys (Python tuple comparison:
lexicographic; strings compare by code point, as Lean's `String` order does). -/
def key_le (a b : Job) : Bool :=
  decide ((rank_key a).1 < (rank_key b).1 ∨
    ((rank_key a).1 = (rank_key b).1 ∧
      ((rank_key a).2.1 < (rank_key b).2.1 ∨
        ((rank_key a).2.1 = (rank_key b).2.1 ∧ (rank_key a).2.2 ≤ (rank_key b).2.2))))

/-- `kept.sort(key=...)` (line 343): Python's Timsort is a stable sort by the
key; any two stable sorts with respect to the same total preorder produce the
same list, so `List.mergeSort` with `key_le` is the same function. -/
def sortRanked (l : List Job) : List Job := l.mergeSort key_le

/-- `apply_filters` (lines 292-344). -/
def apply_filters (env : GeoEnv) (ext : Ext) (p : SearchParams)
    (jobs : List Job) : List Job :=
  sortRanked (jobs.filter (keep_job env ext p))

/-! ### The Workday adapter (spec §4.2)

Modelled from the spec: no Workday adapter exists under `src/` (the only
source file, `app_v2.py`, has adapters for Lever and Greenhouse only), so the
pagination loop is transcribed from the specification's words: page size
capped to `[1,100]`; POST per page; stop on non-200, on an empty page, when
the page count reaches the configured maximum, or when a page returns fewer
postings than the requested page size. -/

/-- Modelled from the spec: "a page size capped to [1,100]". -/
def clampPageSize (n : Int) : Int := max 1 (min 100 n)

/-- Modelled from the spec: the pagination loop.  `fetchPage offset` returns
the HTTP status and the postings of the page at that offset.  The result is
the collected postings paired with the number of pages fetched; the remaining
page budget is the first argument. -/
def workdayLoop {α : Type} (fetchPage : Nat → Nat × List α) (limit : Nat) :
    Nat → Nat → List α × Nat
  | 0, _ => ([], 0)
  | budget + 1, offset =>
    if (fetchPage offset).1 ≠ 200 then ([], 1)
    else if (fetchPage offset).2.length = 0 then ([], 1)
    else if (fetchPage offset).2.length < limit then ((fetchPage offset).2, 1)
    else
      ((fetchPage offset).2 ++ (workdayLoop fetchPage limit budget (offset + limit)).1,
       (workdayLoop fetchPage limit budget (offset + limit)).2 + 1)

/-- Modelled from the spec: the Workday adapter's paginated fetch for one
already-chosen host, with the page size clamped. -/
def fetch_workday {α : Type} (fetchPage : Nat → Nat × List α)
    (maxPages : Nat) (pageSize : Nat) : List α × Nat :=
  workdayLoop fetchPage (clampPageSize pageSize).toNat maxPages 0

/-! ### Well-shaped payloads

The shapes under which the adapter mapping code performs no dynamic-typing
error: every field that flows into `norm`/`strip_html`/`join` or into a
string-typed record slot is a string or falsy, and every container has the
container shape the code iterates or indexes. -/

/-- The value is a string, or falsy (Python's `x or ""` replaces it). -/
def strOrFalsy (x : J) : Bool :=
  !jtruthy x || (match x with | .jstr _ => true | _ => false)

/-- Shape of `item.get("categories") or {}` (Lever) under the keys the code
reads. -/
def catsOk (c : J) : Bool :=
  if jtruthy c then
    match c with
    | .jobj cf =>
      strOrFalsy ((lookupJ cf "location").getD .jnull) &&
      strOrFalsy ((lookupJ cf "team").getD .jnull) &&
      strOrFalsy ((lookupJ cf "commitment").getD .jnull)
    | _ => false
  else true

/-- Shape of one Lever listing. -/
def leverItemOk (item : J) : Bool :=
  match item with
  | .jobj fs =>
    strOrFalsy ((lookupJ fs "text").getD .jnull) &&
    catsOk ((lookupJ fs "categories").getD .jnull) &&
    strOrFalsy ((lookupJ fs "hostedUrl").getD .jnull) &&
    strOrFalsy ((lookupJ fs "applyUrl").getD .jnull) &&
    strOrFalsy ((lookupJ fs "description").getD .jnull) &&
    strOrFalsy ((lookupJ fs "lists").getD .jnull) &&
    strOrFalsy ((lookupJ fs "additional").getD .jnull)
  | _ => false

/-- Shape of a whole Lever payload: a list of well-shaped listings. -/
def leverDataOk (data : J) : Bool :=
  match data with
  | .jarr items => items.all leverItemOk
  | _ => false

/-- Shape of `item.get("location") or {}` (Greenhouse). -/
def locObjOk (c : J) : Bool :=
  if jtruthy c then
    match c with
    | .jobj cf => strOrFalsy ((lookupJ cf "name").getD .jnull)
    | _ => false
  else true

/-- Shape of one `departments` element. -/
def depOk (d : J) : Bool :=
  match d with
  | .jobj df => strOrFalsy ((lookupJ df "name").getD .jnull)
  | _ => false

/-- Shape of the `departments` field. -/
def depsOk (d : J) : Bool :=
  if jtruthy d then
    match d with
    | .jarr ds => ds.all depOk
    | _ => false
  else true

/-- Shape of the `metadata` field: anything iterable (the loop body catches
its own errors element-wise). -/
def metaOk (m : J) : Bool :=
  if jtruthy m then
    match m with
    | .jarr _ => true
    | .jstr _ => true
    | .jobj _ => true
    | _ => false
  else true

/-- Shape of one Greenhouse job. -/
def ghItemOk (item : J) : Bool :=
  match item with
  | .jobj fs =>
    strOrFalsy ((lookupJ fs "title").getD .jnull) &&
    locObjOk ((lookupJ fs "location").getD .jnull) &&
    depsOk ((lookupJ fs "departments").getD .jnull) &&
    metaOk ((lookupJ fs "metadata").getD .jnull) &&
    strOrFalsy ((lookupJ fs "absolute_url").getD .jnull) &&
    strOrFalsy ((lookupJ fs "updated_at").getD .jnull) &&
    strOrFalsy ((lookupJ fs "created_at").getD .jnull) &&
    strOrFalsy ((lookupJ fs "content").getD .jnull)
  | _ => false

/-- Shape of a whole Greenhouse payload: an object whose `jobs` (defaulting
to `[]`) is a list of well-shaped jobs. -/
def ghDataOk (data : J) : Bool :=
  match data with
  | .jobj fs =>
    match (lookupJ fs "jobs").getD (.jarr []) with
    | .jarr items => items.all ghItemOk
    | _ => false
  | _ => false

/-! ### Sample values for concrete runs -/

/-- C1 counterexample input: a record with an empty URL. -/
def emptyUrlJob : Job := { title := "curriculum designer", url := "" }

/-! ### Sample environments for concrete runs -/

/-- External capabilities with an identity `get_text` and no timestamp
conversion. -/
def extId : Ext := { getText := id, isoOfCreated := fun _ => none }

/-- geopy unavailable (the `except` branch of lines 13-18). -/
def geoOff : GeoEnv :=
  { available := false, geocodeZip := fun _ => none,
    geocodeLoc := fun _ => none, distMiles := fun _ _ => 0 }

/-- geopy available; every location resolves to the origin `(0, 0)`. -/
def geoOn : GeoEnv :=
  { available := true, geocodeZip := fun _ => none,
    geocodeLoc := fun _ => some (0, 0), distMiles := fun _ _ => 0 }

/-- A non-remote job with a location that does not resolve within any radius. -/
def jSpring : Job := { remote := false, location := "springfield", url := "https://x/2" }

/-- Search parameters with explicit origin coordinates. -/
def pExplicit : SearchParams :=
  { latitude := some 0, longitude := some 0, keywords := [], require_clearance := false }

/-- Two survivors with identical ranking keys. -/
def jobA : Job := { company := "acme", url := "https://x/a" }

/-- Second survivor with the same key as `jobA`. -/
def jobB : Job := { company := "acme", url := "https://x/b", title := "later" }

/-- Parameters that keep every job (no keywords, no clearance, radius off). -/
def pPlain : SearchParams := { keywords := [], require_clearance := false }

/-! ## Theorems -/

/-! ### Aggregation de-duplication (C1, C7) -/

/-- Every record kept by the de-duplication loop has a non-empty URL. -/
theorem dedupeLoop_mem_url_ne {seen : List String} {l : List Job} {j : Job}
    (h : j ∈ dedupeLoop seen l) : j.url ≠ "" := by
  induction l generalizing seen with
  | nil => simp [dedupeLoop] at h
  | cons a rest ih =>
    rw [dedupeLoop] at h
    split at h
    · rcases List.mem_cons.mp h with rfl | h2
      · rename_i hc
        exact hc.1
      · exact ih h2
    · exact ih h

/-- The de-duplication loop output is a subsequence of its input. -/
theorem dedupeLoop_sublist (seen : List String) (l : List Job) :
    List.Sublist (dedupeLoop seen l) l := by
  induction l generalizing seen with
  | nil => simp [dedupeLoop]
  | cons a rest ih =>
    rw [dedupeLoop]
    split
    · exact List.Sublist.cons₂ a (ih _)
    · exact List.Sublist.cons a (ih _)

/-- Count of records with URL `u` in the loop output: `0` once `u` has been
seen, else `1` exactly when some input record carries `u`. -/
theorem dedupeLoop_countP (u : String) (hu : u ≠ "") (seen : List String)
    (l : List Job) :
    (dedupeLoop seen l).countP (fun j => j.url == u) =
      (if u ∈ seen then 0 else if l.any (fun j => j.url == u) then 1 else 0) := by
  induction l generalizing seen with
  | nil => simp [dedupeLoop]
  | cons a rest ih =>
    rw [dedupeLoop]
    by_cases hkeep : a.url ≠ "" ∧ a.url ∉ seen
    · rw [if_pos hkeep, List.countP_cons, ih]
      by_cases hau : a.url = u
      · subst hau
        simp [List.any_cons, hkeep.2, List.mem_cons]
      · have hau' : ¬u = a.url := fun h => hau h.symm
        have hne : (a.url == u) = false := by simp [hau]
        simp [List.any_cons, hne, List.mem_cons, hau']
    · rw [if_neg hkeep, ih]
      by_cases hau : a.url = u
      · subst hau
        have hs : a.url ∈ seen := by
          rcases not_and_or.mp hkeep with h1 | h2
          · exact absurd hu (by simpa using h1)
          · simpa using h2
        simp [hs]
      · have hne : (a.url == u) = false := by simp [hau]
        simp [List.any_cons, hne]

/-- The first surviving record with URL `u` is the first input record with
URL `u` (provided `u` is non-empty and not yet seen). -/
theorem dedupeLoop_find (u : String) (hu : u ≠ "") (seen : List String)
    (hs : u ∉ seen) (l : List Job) :
    (dedupeLoop seen l).find? (fun j => j.url == u) =
      l.find? (fun j => j.url == u) := by
  induction l generalizing seen hs with
  | nil => simp [dedupeLoop]
  | cons a rest ih =>
    rw [dedupeLoop]
    by_cases hau : a.url = u
    · have hkeep : a.url ≠ "" ∧ a.url ∉ seen := ⟨hau ▸ hu, hau ▸ hs⟩
      rw [if_pos hkeep]
      simp [List.find?_cons, hau]
    · have hne : (a.url == u) = false := by simp [hau]
      have hau' : ¬u = a.url := fun h => hau h.symm
      split
      · simp only [List.find?_cons, hne]
        exact ih _ (by simp [List.mem_cons, hau', hs])
      · simp only [List.find?_cons, hne]
        exact ih _ hs



/-- C1: the claim "no empty-URL record is ever removed" is false: a single
record with an empty URL is dropped by the de-duplication pass of
`collect_jobs` (line 272: `if u and u not in seen` fails for falsy `u`). -/
theorem C1_counterexample :
    collect_dedupe [emptyUrlJob] = [] ∧ emptyUrlJob.url = "" := by
  constructor
  · simp [collect_dedupe, dedupeLoop, emptyUrlJob]
  · rfl

/-- C1 (amended): aggregation de-duplication in `collect_jobs` removes every
record whose URL is empty — no empty-URL record survives, regardless of how
many appear. -/
theorem C1_empty_url_removed (out : List Job) (j : Job)
    (h : j ∈ collect_dedupe out) : j.url ≠ "" :=
  dedupeLoop_mem_url_ne h

/-- Witness for `C1_empty_url_removed` at a concrete input. -/
theorem C1_empty_url_removed_witness :
    ({ url := "https://x/1" } : Job) ∈ collect_dedupe [{ url := "https://x/1" }] ∧
      ({ url := "https://x/1" } : Job).url ≠ "" :=
  have hmem : ({ url := "https://x/1" } : Job) ∈ collect_dedupe [{ url := "https://x/1" }] := by
    simp [collect_dedupe, dedupeLoop]
  ⟨hmem, C1_empty_url_removed _ _ hmem⟩

/-- C7: the de-duplication pass of `collect_jobs` preserves relative input
order (its output is a subsequence of the concatenated adapter output), and
for every non-empty URL occurring in the input, exactly one record with that
URL survives, namely the first seen. -/
theorem C7_dedupe_first_seen_wins (out : List Job) (u : String) (hu : u ≠ "") :
    List.Sublist (collect_dedupe out) out ∧
    ((collect_dedupe out).countP (fun j => j.url == u) =
      if out.any (fun j => j.url == u) then 1 else 0) ∧
    ((collect_dedupe out).find? (fun j => j.url == u) =
      out.find? (fun j => j.url == u)) := by
  refine ⟨dedupeLoop_sublist [] out, ?_, ?_⟩
  · rw [collect_dedupe, dedupeLoop_countP u hu [] out]
    simp
  · exact dedupeLoop_find u hu [] (by simp) out

/-- Witness for `C7_dedupe_first_seen_wins`: two records from different
sources share a URL; one survives, the first seen. -/
theorem C7_dedupe_first_seen_wins_witness :
    List.Sublist
      (collect_dedupe [{ source := "lever", url := "https://x/1" },
        { source := "greenhouse", url := "https://x/1" }])
      [{ source := "lever", url := "https://x/1" },
        { source := "greenhouse", url := "https://x/1" }] ∧
    ((collect_dedupe [{ source := "lever", url := "https://x/1" },
        { source := "greenhouse", url := "https://x/1" }]).countP
      (fun j => j.url == "https://x/1") =
      if ([({ source := "lever", url := "https://x/1" } : Job),
        { source := "greenhouse", url := "https://x/1" }].any
          (fun j => j.url == "https://x/1")) then 1 else 0) ∧
    ((collect_dedupe [{ source := "lever", url := "https://x/1" },
        { source := "greenhouse", url := "https://x/1" }]).find?
      (fun j => j.url == "https://x/1") =
      [({ source := "lever", url := "https://x/1" } : Job),
        { source := "greenhouse", url := "https://x/1" }].find?
        (fun j => j.url == "https://x/1")) :=
  C7_dedupe_first_seen_wins _ "https://x/1" (by decide)

/-! ### Board-token validation (C9) -/

/-- C9 counterexample: Python's `$` also matches just before one final
newline, so `valid_board_token` accepts `"abc\n"`, a string that is not made
up solely of lowercase letters, digits, and hyphens.  This falsifies the
claim that exactly the `[a-z0-9-]`-only strings are accepted. -/
theorem C9_counterexample :
    valid_board_token "abc\n" = true ∧ "abc\n".data.all tokenChar = false := by
  decide

/-- C9 (amended): `valid_board_token` accepts exactly a non-empty run of
lowercase letters, digits, and hyphens optionally followed by one trailing
newline; every rejected identifier makes `fetch_lever` and `fetch_greenhouse`
return `[]` whatever the cache and the network response are — in particular
no network interaction can influence (or be influenced by) the call, which is
the model-level reading of "no network request is issued". -/
theorem C9_token_validation :
    (∀ t : String, valid_board_token t = true ↔
      ((t.data ≠ [] ∧ t.data.all tokenChar = true) ∨
       (∃ body, t.data = body ++ ['\n'] ∧ body ≠ [] ∧ body.all tokenChar = true))) ∧
    (∀ (ext : Ext) (c : String) (cached : Option (List Job)) (resp : Option J),
      valid_board_token c = false →
      fetch_lever ext c cached resp = .ok [] ∧
      fetch_greenhouse ext c cached resp = .ok []) := by
  constructor
  · intro t
    constructor
    · intro h
      rw [valid_board_token] at h
      simp only [Bool.and_eq_true, Bool.or_eq_true, decide_eq_true_eq] at h
      obtain ⟨htw, hdw⟩ := h
      have hsplit := List.takeWhile_append_dropWhile (p := tokenChar) (l := t.data)
      have hall : (t.data.takeWhile tokenChar).all tokenChar = true := by
        rw [List.all_eq_true]
        intro x hx
        exact List.mem_takeWhile_imp hx
      rcases hdw with hnil | hlf
      · left
        rw [hnil, List.append_nil] at hsplit
        exact ⟨hsplit ▸ htw, hsplit ▸ hall⟩
      · right
        exact ⟨t.data.takeWhile tokenChar, by rw [← hlf, hsplit], htw, hall⟩
    · intro h
      rcases h with ⟨hne, hall⟩ | ⟨body, heq, hbne, hball⟩
      · have h1 : t.data.takeWhile tokenChar = t.data :=
          List.takeWhile_eq_self_iff.mpr (by simpa [List.all_eq_true] using hall)
        have h2 : t.data.dropWhile tokenChar = [] :=
          List.dropWhile_eq_nil_iff.mpr (by simpa [List.all_eq_true] using hall)
        rw [valid_board_token]
        simp [h1, h2, hne]
      · have hmem : ∀ a ∈ body, tokenChar a = true := by
          simpa [List.all_eq_true] using hball
        have h1 : t.data.takeWhile tokenChar = body := by
          rw [heq, List.takeWhile_append_of_pos hmem]
          simp [List.takeWhile, tokenChar]
        have h2 : t.data.dropWhile tokenChar = ['\n'] := by
          rw [heq, List.dropWhile_append_of_pos hmem]
          simp [List.dropWhile, tokenChar]
        rw [valid_board_token]
        simp [h1, h2, hbne]
  · intro ext c cached resp h
    constructor
    · rw [fetch_lever.eq_def, h]
      rfl
    · rw [fetch_greenhouse.eq_def, h]
      rfl

/-- Witness for `C9_token_validation`: an identifier with uppercase (and one
with a space) is rejected, and the fetchers ignore cache and network for it. -/
theorem C9_token_validation_witness :
    (valid_board_token "acme-Corp" = true ↔
      (("acme-Corp".data ≠ [] ∧ "acme-Corp".data.all tokenChar = true) ∨
       (∃ body, "acme-Corp".data = body ++ ['\n'] ∧ body ≠ [] ∧
         body.all tokenChar = true))) ∧
    (fetch_lever { getText := id, isoOfCreated := fun _ => none } "acme corp" none
        (some (J.jarr [])) = .ok [] ∧
      fetch_greenhouse { getText := id, isoOfCreated := fun _ => none } "acme corp" none
        (some (J.jarr [])) = .ok []) :=
  ⟨C9_token_validation.1 "acme-Corp",
   C9_token_validation.2 _ "acme corp" none (some (J.jarr [])) (by decide)⟩

/-! ### Workday pagination (C3; modelled from the spec, no Workday code is
present under `src/`) -/

/-- The page counter of the loop never exceeds the remaining budget. -/
theorem workdayLoop_pages_le {α : Type} (fetchPage : Nat → Nat × List α)
    (limit : Nat) (budget offset : Nat) :
    (workdayLoop fetchPage limit budget offset).2 ≤ budget := by
  induction budget generalizing offset with
  | zero => simp [workdayLoop]
  | succ b ih =>
    rw [workdayLoop]
    split
    · simp
    · split
      · simp
      · split
        · simp
        · have := ih (offset + limit)
          simpa using Nat.add_le_add_right this 1

/-- C3: the Workday adapter (modelled from the spec) clamps the page size
into `[1,100]`; the number of pages fetched never exceeds the configured
maximum; and the loop stops after the current page when the response is not
HTTP 200, when a page has no postings, or when a page returns fewer postings
than the requested page size. -/
theorem C3_workday_pagination {α : Type} (fetchPage : Nat → Nat × List α)
    (maxPages pageSize : Nat) (budget offset : Nat) :
    (∀ n : Int, 1 ≤ clampPageSize n ∧ clampPageSize n ≤ 100) ∧
    (fetch_workday fetchPage maxPages pageSize).2 ≤ maxPages ∧
    (∀ limit : Nat,
      ((fetchPage offset).1 ≠ 200 →
        workdayLoop fetchPage limit (budget + 1) offset = ([], 1)) ∧
      ((fetchPage offset).2.length = 0 →
        workdayLoop fetchPage limit (budget + 1) offset = ([], 1)) ∧
      ((fetchPage offset).1 = 200 → (fetchPage offset).2.length ≠ 0 →
        (fetchPage offset).2.length < limit →
        workdayLoop fetchPage limit (budget + 1) offset =
          ((fetchPage offset).2, 1))) := by
  refine ⟨?_, workdayLoop_pages_le _ _ _ _, ?_⟩
  · intro n
    constructor
    · simp [clampPageSize, le_max_iff]
    · simp [clampPageSize, max_le_iff, min_le_iff]
  · intro limit
    refine ⟨?_, ?_, ?_⟩
    · intro h
      rw [workdayLoop, if_pos h]
    · intro h
      rw [workdayLoop]
      by_cases hs : (fetchPage offset).1 ≠ 200
      · rw [if_pos hs]
      · rw [if_neg hs, if_pos h]
    · intro h200 hne hlt
      rw [workdayLoop, if_neg (by simpa using h200), if_neg hne, if_pos hlt]

/-- Witness for `C3_workday_pagination`: a source whose page at offset 0
carries two postings with requested size 50 stops after one page. -/
theorem C3_workday_pagination_witness :
    (1 ≤ clampPageSize 50 ∧ clampPageSize 50 ≤ 100) ∧
    (workdayLoop (fun _ => (200, ["a", "b"])) 50 (4 + 1) 0 = (["a", "b"], 1)) :=
  ⟨(C3_workday_pagination (fun _ => (200, ["a", "b"])) 7 50 4 0).1 50,
   ((C3_workday_pagination (fun _ => (200, ["a", "b"])) 7 50 4 0).2.2 50).2.2
     (by decide) (by decide) (by decide)⟩



/-! ### Salary filter (C5) -/

/-- C5: in `apply_filters`, a job with known minimum compensation has a
missing maximum treated as the minimum and is excluded by the salary stage
exactly when that maximum is below `salary_min` or the minimum is above
`salary_max`; a job with unknown minimum always passes; and the concrete job
(min 90000, max null) is excluded end-to-end against `[100000, 200000]`. -/
theorem C5_salary_filter :
    (∀ (p : SearchParams) (j : Job) (lo : ℚ), j.comp_annual_min = some lo →
      (salary_pass p j = false ↔
        (j.comp_annual_max.getD lo < p.salary_min ∨ lo > p.salary_max))) ∧
    (∀ (p : SearchParams) (j : Job), j.comp_annual_min = none →
      salary_pass p j = true) ∧
    (apply_filters geoOff extId
      { keywords := [], require_clearance := false,
        salary_min := 100000, salary_max := 200000 }
      [{ comp_annual_min := some 90000, comp_annual_max := none }] = []) := by
  refine ⟨?_, ?_, ?_⟩
  · intro p j lo h
    by_cases hc : j.comp_annual_max.getD lo < p.salary_min ∨ lo > p.salary_max
    · simp [salary_pass, h, hc]
    · simp [salary_pass, h, hc]
  · intro p j h
    simp [salary_pass, h]
  · have hk : keep_job geoOff extId
        { keywords := [], require_clearance := false,
          salary_min := 100000, salary_max := 200000 }
        { comp_annual_min := some 90000, comp_annual_max := none } = false := by
      with_unfolding_all rfl
    simp [apply_filters, List.filter, hk, sortRanked]

/-- Witness for `C5_salary_filter` at the spec's concrete numbers. -/
theorem C5_salary_filter_witness :
    ({ comp_annual_min := some 90000 } : Job).comp_annual_min = some 90000 ∧
    (salary_pass { salary_min := 100000, salary_max := 200000 }
        { comp_annual_min := some 90000 } = false ↔
      (({ comp_annual_min := some 90000 } : Job).comp_annual_max.getD 90000 <
          (100000 : ℚ) ∨ (90000 : ℚ) > 200000)) :=
  ⟨rfl, C5_salary_filter.1 { salary_min := 100000, salary_max := 200000 }
    { comp_annual_min := some 90000 } 90000 rfl⟩

/-! ### Remote/radius stage (C6) -/



/-- C6 counterexample: explicit coordinates are supplied, so by the claim the
origin is resolvable and the job — not remote, location not within radius —
must be excluded by the remote/radius stage; but with geopy unavailable
`skip_radius` (line 301) is true and the job survives `apply_filters`. -/
theorem C6_counterexample :
    apply_filters geoOff extId pExplicit [jSpring] = [jSpring] ∧
    pExplicit.latitude = some 0 ∧ pExplicit.longitude = some 0 ∧
    jSpring.remote = false ∧ jSpring.location ≠ "" ∧
    inside_radius geoOff (0, 0) jSpring.location pExplicit.radius = false := by
  refine ⟨?_, rfl, rfl, rfl, by decide, rfl⟩
  have hk : keep_job geoOff extId pExplicit jSpring = true := by
    with_unfolding_all rfl
  rw [apply_filters, List.filter_cons, if_pos hk, List.filter_nil]
  rw [sortRanked, List.mergeSort_singleton]

/-- C6 (amended): the radius check is disabled for the whole run whenever the
geocoding capability is unavailable or no origin was resolved — even when
explicit coordinates were supplied — and then no job is excluded by the
remote/radius stage; when it is enabled, a job passes the stage exactly when
(remote is allowed and the job is flagged remote) or (the job has a non-empty
location that resolves within the configured radius of the origin), so a
non-remote job with no resolvable or within-radius location is excluded. -/
theorem C6_remote_radius :
    (∀ (env : GeoEnv) (p : SearchParams), skip_radius env p = true ↔
      (env.available = false ∨ originOf env p = none)) ∧
    (∀ (env : GeoEnv) (p : SearchParams) (j : Job),
      skip_radius env p = true → remote_radius_pass env p j = true) ∧
    (∀ (env : GeoEnv) (p : SearchParams) (j : Job) (o : ℚ × ℚ),
      skip_radius env p = false → originOf env p = some o →
      (remote_radius_pass env p j = true ↔
        ((p.include_remote = true ∧ j.remote = true) ∨
         (j.location ≠ "" ∧ inside_radius env o j.location p.radius = true)))) := by
  refine ⟨?_, ?_, ?_⟩
  · intro env p
    simp [skip_radius, Bool.or_eq_true, Bool.not_eq_true', Option.isNone_iff_eq_none]
  · intro env p j h
    by_cases hr : p.include_remote && j.remote
    · simp [remote_radius_pass, hr]
    · simp [remote_radius_pass, hr, h]
  · intro env p j o h1 h2
    by_cases hr : p.include_remote && j.remote
    · simp only [Bool.and_eq_true] at hr
      simp [remote_radius_pass, hr]
    · have hr' : ¬(p.include_remote = true ∧ j.remote = true) := by
        simpa [Bool.and_eq_true] using hr
      simp [remote_radius_pass, hr, h1, h2, hr', Bool.and_eq_true]

/-- Witness for `C6_remote_radius` with the radius check enabled. -/
theorem C6_remote_radius_witness :
    skip_radius geoOn pExplicit = false ∧ originOf geoOn pExplicit = some (0, 0) ∧
    (remote_radius_pass geoOn pExplicit jSpring = true ↔
      ((pExplicit.include_remote = true ∧ jSpring.remote = true) ∨
       (jSpring.location ≠ "" ∧
        inside_radius geoOn (0, 0) jSpring.location pExplicit.radius = true))) :=
  ⟨rfl, rfl, C6_remote_radius.2.2 geoOn pExplicit jSpring (0, 0) rfl rfl⟩

/-! ### Except plumbing shared by the adapter theorems -/

/-- Inversion of a successful `Except` bind. -/
theorem bind_eq_ok {α β : Type} {x : Except String α} {f : α → Except String β}
    {b : β} (h : x >>= f = .ok b) : ∃ a, x = .ok a ∧ f a = .ok b := by
  cases x with
  | error e => simp [Bind.bind, Except.bind] at h
  | ok a => exact ⟨a, rfl, by simpa [Bind.bind, Except.bind] using h⟩

/-- Every record produced by the mapping loop comes from some input item. -/
theorem mapItems_mem {f : J → Except String Job} {items : List J}
    {jobs : List Job} (h : mapItems f items = .ok jobs) {j : Job}
    (hj : j ∈ jobs) : ∃ x ∈ items, f x = .ok j := by
  induction items generalizing jobs with
  | nil =>
    rw [mapItems] at h
    injection h with h
    subst h
    simp at hj
  | cons x xs ih =>
    rw [mapItems] at h
    obtain ⟨a, ha, h⟩ := bind_eq_ok h
    obtain ⟨as, has, h⟩ := bind_eq_ok h
    injection h with h
    subst h
    rcases List.mem_cons.mp hj with rfl | hmem
    · exact ⟨x, List.mem_cons_self x xs, ha⟩
    · obtain ⟨y, hy, hfy⟩ := ih has hmem
      exact ⟨y, List.mem_cons_of_mem x hy, hfy⟩

/-- The `remote` field of every record built by `leverItem` is derived from
that record's `location` field. -/
theorem leverItem_remote {ext : Ext} {c : String} {item : J} {j : Job}
    (h : leverItem ext c item = .ok j) :
    j.remote = remoteOfLocation j.location := by
  rw [leverItem] at h
  repeat obtain ⟨_, -, h⟩ := bind_eq_ok h
  injection h with h
  subst h
  rfl

/-- The `remote` field of every record built by `ghItem` is derived from that
record's `location` field. -/
theorem ghItem_remote {ext : Ext} {c : String} {item : J} {j : Job}
    (h : ghItem ext c item = .ok j) :
    j.remote = remoteOfLocation j.location := by
  rw [ghItem] at h
  repeat obtain ⟨_, -, h⟩ := bind_eq_ok h
  injection h with h
  subst h
  rfl

/-- C10: every record produced by `fetch_lever` or `fetch_greenhouse` has its
remote flag true exactly when its (normalized) location contains the
substring "remote" case-insensitively; the flag is a function of the location
field alone, so title, department, work type, and description cannot affect
it. -/
theorem C10_remote_flag :
    (∀ (ext : Ext) (c : String) (data : J) (jobs : List Job) (j : Job),
      fetch_lever ext c none (some data) = .ok jobs → j ∈ jobs →
      j.remote = remoteOfLocation j.location) ∧
    (∀ (ext : Ext) (c : String) (data : J) (jobs : List Job) (j : Job),
      fetch_greenhouse ext c none (some data) = .ok jobs → j ∈ jobs →
      j.remote = remoteOfLocation j.location) ∧
    (∀ loc : String,
      remoteOfLocation loc = containsSub (lowerStr loc).data "remote".data) := by
  refine ⟨?_, ?_, fun _ => rfl⟩
  · intro ext c data jobs j h hj
    rw [fetch_lever.eq_def] at h
    by_cases hv : valid_board_token c
    · rw [hv] at h
      simp only [Bool.not_true, Bool.false_eq_true, if_false] at h
      obtain ⟨items, -, h⟩ := bind_eq_ok h
      obtain ⟨x, -, hfx⟩ := mapItems_mem h hj
      exact leverItem_remote hfx
    · rw [Bool.not_eq_true] at hv
      rw [hv] at h
      simp only [Bool.not_false, if_true] at h
      injection h with h
      subst h
      simp at hj
  · intro ext c data jobs j h hj
    rw [fetch_greenhouse.eq_def] at h
    by_cases hv : valid_board_token c
    · rw [hv] at h
      simp only [Bool.not_true, Bool.false_eq_true, if_false] at h
      obtain ⟨jobsJ, -, h⟩ := bind_eq_ok h
      obtain ⟨items, -, h⟩ := bind_eq_ok h
      obtain ⟨x, -, hfx⟩ := mapItems_mem h hj
      exact ghItem_remote hfx
    · rw [Bool.not_eq_true] at hv
      rw [hv] at h
      simp only [Bool.not_false, if_true] at h
      injection h with h
      subst h
      simp at hj

/-- Witness for `C10_remote_flag`: a Lever payload with one empty listing
maps to one record, whose remote flag is the location-derived value. -/
theorem C10_remote_flag_witness :
    fetch_lever extId "acme" none (some (J.jarr [J.jobj []])) =
      .ok [{ source := "lever", company := "acme" }] ∧
    ({ source := "lever", company := "acme" } : Job) ∈
      [({ source := "lever", company := "acme" } : Job)] ∧
    ({ source := "lever", company := "acme" } : Job).remote =
      remoteOfLocation ({ source := "lever", company := "acme" } : Job).location :=
  have hf : fetch_lever extId "acme" none (some (J.jarr [J.jobj []])) =
      .ok [{ source := "lever", company := "acme" }] := by
    with_unfolding_all rfl
  ⟨hf, List.mem_singleton.mpr rfl,
   C10_remote_flag.1 extId "acme" (J.jarr [J.jobj []]) _ _ hf
     (List.mem_singleton.mpr rfl)⟩

/-! ### Adapter failure semantics (C2) -/

/-- A successful value can be extracted from an `isOk` computation. -/
theorem exists_of_isOk {α : Type} {e : Except String α} (h : e.isOk = true) :
    ∃ a, e = .ok a := by
  cases e with
  | error _ => simp [Except.isOk, Except.toBool] at h
  | ok a => exact ⟨a, rfl⟩

/-- Forward composition of a successful bind. -/
theorem bind_isOk {α β : Type} {x : Except String α} {f : α → Except String β}
    {a : α} (hx : x = .ok a) (hf : (f a).isOk = true) : (x >>= f).isOk = true := by
  subst hx
  simpa [Bind.bind, Except.bind] using hf

/-- A truthy string-or-falsy value is a string. -/
theorem strOrFalsy_truthy {x : J} (h : strOrFalsy x = true)
    (ht : jtruthy x = true) : ∃ s, x = .jstr s := by
  cases x <;> simp_all [strOrFalsy, jtruthy]

/-- `pyOr` preserves string-or-falsy. -/
theorem strOrFalsy_pyOr {a b : J} (ha : strOrFalsy a = true)
    (hb : strOrFalsy b = true) : strOrFalsy (pyOr a b) = true := by
  rw [pyOr]
  split <;> assumption

/-- `norm` succeeds on a string-or-falsy value. -/
theorem pyNorm_isOk {x : J} (h : strOrFalsy x = true) : (pyNorm x).isOk = true := by
  by_cases ht : jtruthy x
  · obtain ⟨s, rfl⟩ := strOrFalsy_truthy h ht
    rw [pyNorm, if_pos ht]
    rfl
  · rw [pyNorm, if_neg ht]
    rfl

/-- `strip_html` succeeds on a string-or-falsy value. -/
theorem strip_html_isOk {ext : Ext} {x : J} (h : strOrFalsy x = true) :
    (strip_html ext x).isOk = true := by
  by_cases ht : jtruthy x
  · obtain ⟨s, rfl⟩ := strOrFalsy_truthy h ht
    rw [strip_html, if_pos ht]
    rfl
  · rw [strip_html, if_neg ht]
    rfl

/-- The URL/posted-at chains `a or b or ""` land on a string when both
operands are string-or-falsy. -/
theorem jAsStr_orChain_isOk {a b : J} (ha : strOrFalsy a = true)
    (hb : strOrFalsy b = true) :
    (jAsStr (pyOr (pyOr a b) (.jstr ""))).isOk = true := by
  by_cases ht : jtruthy (pyOr a b)
  · obtain ⟨s, hs⟩ := strOrFalsy_truthy (strOrFalsy_pyOr ha hb) ht
    rw [pyOr, if_pos (hs ▸ ht), hs]
    rfl
  · rw [pyOr, if_neg ht]
    rfl

/-- Reading one of the three category keys after `categories or {}`. -/
theorem catsOk_field {c : J} (h : catsOk c = true) {k : String}
    (hk : k = "location" ∨ k = "team" ∨ k = "commitment") :
    ∃ v, jget (pyOr c (.jobj [])) k = .ok v ∧ strOrFalsy v = true := by
  cases c with
  | jobj cf =>
    by_cases ht : jtruthy (J.jobj cf)
    · rw [catsOk, if_pos ht] at h
      simp only [Bool.and_eq_true] at h
      rw [pyOr, if_pos ht]
      rcases hk with rfl | rfl | rfl
      · exact ⟨_, rfl, h.1.1⟩
      · exact ⟨_, rfl, h.1.2⟩
      · exact ⟨_, rfl, h.2⟩
    · rw [pyOr, if_neg ht]
      exact ⟨.jnull, rfl, rfl⟩
  | jnull => exact ⟨.jnull, rfl, rfl⟩
  | jbool b =>
    by_cases ht : jtruthy (J.jbool b)
    · simp [catsOk, ht] at h
    · rw [pyOr, if_neg ht]
      exact ⟨.jnull, rfl, rfl⟩
  | jnum q =>
    by_cases ht : jtruthy (J.jnum q)
    · simp [catsOk, ht] at h
    · rw [pyOr, if_neg ht]
      exact ⟨.jnull, rfl, rfl⟩
  | jstr s =>
    by_cases ht : jtruthy (J.jstr s)
    · simp [catsOk, ht] at h
    · rw [pyOr, if_neg ht]
      exact ⟨.jnull, rfl, rfl⟩
  | jarr xs =>
    by_cases ht : jtruthy (J.jarr xs)
    · simp [catsOk, ht] at h
    · rw [pyOr, if_neg ht]
      exact ⟨.jnull, rfl, rfl⟩

/-- Reading `name` after `location or {}` (Greenhouse). -/
theorem locObjOk_field {c : J} (h : locObjOk c = true) :
    ∃ v, jget (pyOr c (.jobj [])) "name" = .ok v ∧ strOrFalsy v = true := by
  cases c with
  | jobj cf =>
    by_cases ht : jtruthy (J.jobj cf)
    · rw [locObjOk, if_pos ht] at h
      rw [pyOr, if_pos ht]
      exact ⟨_, rfl, h⟩
    · rw [pyOr, if_neg ht]
      exact ⟨.jnull, rfl, rfl⟩
  | jnull => exact ⟨.jnull, rfl, rfl⟩
  | jbool b =>
    by_cases ht : jtruthy (J.jbool b)
    · simp [locObjOk, ht] at h
    · rw [pyOr, if_neg ht]
      exact ⟨.jnull, rfl, rfl⟩
  | jnum q =>
    by_cases ht : jtruthy (J.jnum q)
    · simp [locObjOk, ht] at h
    · rw [pyOr, if_neg ht]
      exact ⟨.jnull, rfl, rfl⟩
  | jstr s =>
    by_cases ht : jtruthy (J.jstr s)
    · simp [locObjOk, ht] at h
    · rw [pyOr, if_neg ht]
      exact ⟨.jnull, rfl, rfl⟩
  | jarr xs =>
    by_cases ht : jtruthy (J.jarr xs)
    · simp [locObjOk, ht] at h
    · rw [pyOr, if_neg ht]
      exact ⟨.jnull, rfl, rfl⟩

/-- One Lever listing of a well-formed shape maps without raising. -/
theorem leverItem_isOk {ext : Ext} {c : String} {item : J}
    (h : leverItemOk item = true) : (leverItem ext c item).isOk = true := by
  cases item with
  | jobj fs =>
    rw [leverItemOk] at h
    simp only [Bool.and_eq_true] at h
    obtain ⟨⟨⟨⟨⟨⟨htext, hcats⟩, hhost⟩, happly⟩, hdesc⟩, hlists⟩, hadd⟩ := h
    rw [leverItem]
    refine bind_isOk rfl ?_
    obtain ⟨title, htitle⟩ := exists_of_isOk (pyNorm_isOk htext)
    refine bind_isOk htitle ?_
    refine bind_isOk rfl ?_
    obtain ⟨vloc, hvloc, hvloc2⟩ := catsOk_field hcats (Or.inl rfl)
    refine bind_isOk hvloc ?_
    obtain ⟨loc, hloc⟩ := exists_of_isOk (pyNorm_isOk hvloc2)
    refine bind_isOk hloc ?_
    refine bind_isOk rfl ?_
    obtain ⟨vteam, hvteam, hvteam2⟩ := catsOk_field hcats (Or.inr (Or.inl rfl))
    refine bind_isOk hvteam ?_
    obtain ⟨dep, hdep⟩ := exists_of_isOk (pyNorm_isOk hvteam2)
    refine bind_isOk hdep ?_
    refine bind_isOk rfl ?_
    obtain ⟨vcom, hvcom, hvcom2⟩ := catsOk_field hcats (Or.inr (Or.inr rfl))
    refine bind_isOk hvcom ?_
    obtain ⟨wt, hwt⟩ := exists_of_isOk (pyNorm_isOk hvcom2)
    refine bind_isOk hwt ?_
    refine bind_isOk rfl ?_
    refine bind_isOk rfl ?_
    obtain ⟨url, hurl⟩ := exists_of_isOk (jAsStr_orChain_isOk hhost happly)
    refine bind_isOk hurl ?_
    refine bind_isOk rfl ?_
    refine bind_isOk rfl ?_
    refine bind_isOk rfl ?_
    refine bind_isOk rfl ?_
    obtain ⟨stripped, hstripped⟩ := exists_of_isOk
      (strip_html_isOk (x := pyOr (pyOr ((lookupJ fs "description").getD .jnull)
          ((lookupJ fs "lists").getD .jnull)) ((lookupJ fs "additional").getD .jnull))
        (strOrFalsy_pyOr (strOrFalsy_pyOr hdesc hlists) hadd))
    refine bind_isOk hstripped ?_
    rfl
  | jnull => simp [leverItemOk] at h
  | jbool b => simp [leverItemOk] at h
  | jnum q => simp [leverItemOk] at h
  | jstr s => simp [leverItemOk] at h
  | jarr xs => simp [leverItemOk] at h

/-- The mapping loop succeeds when every item maps successfully. -/
theorem mapItems_isOk {f : J → Except String Job} {items : List J}
    (h : ∀ x ∈ items, (f x).isOk = true) : (mapItems f items).isOk = true := by
  induction items with
  | nil => rfl
  | cons x xs ih =>
    rw [mapItems]
    obtain ⟨a, ha⟩ := exists_of_isOk (h x (List.mem_cons_self x xs))
    refine bind_isOk ha ?_
    obtain ⟨as, has⟩ := exists_of_isOk (ih fun y hy => h y (List.mem_cons_of_mem x hy))
    refine bind_isOk has ?_
    rfl

/-- Rewriting a bind whose left side is known to succeed. -/
theorem bind_ok_congr {α β : Type} {x : Except String α} {a : α}
    {f : α → Except String β} (hx : x = .ok a) : (x >>= f) = f a := by
  subst hx
  rfl

/-- `a or ""` lands on a string when `a` is string-or-falsy. -/
theorem jAsStr_or_isOk {a : J} (ha : strOrFalsy a = true) :
    (jAsStr (pyOr a (.jstr ""))).isOk = true := by
  by_cases ht : jtruthy a
  · obtain ⟨s, hs⟩ := strOrFalsy_truthy ha ht
    rw [pyOr, if_pos ht, hs]
    rfl
  · rw [pyOr, if_neg ht]
    rfl

/-- The `departments` value (defaulted to `[]`) iterates to well-shaped
elements. -/
theorem depsOk_iter {d : J} (h : depsOk d = true) :
    ∃ ds, pyIter (pyOr d (.jarr [])) = .ok ds ∧ ds.all depOk = true := by
  cases d with
  | jarr ds =>
    by_cases ht : jtruthy (J.jarr ds)
    · rw [depsOk, if_pos ht] at h
      rw [pyOr, if_pos ht]
      exact ⟨ds, rfl, h⟩
    · rw [pyOr, if_neg ht]
      exact ⟨[], rfl, rfl⟩
  | jnull => exact ⟨[], rfl, rfl⟩
  | jbool b =>
    by_cases ht : jtruthy (J.jbool b)
    · simp [depsOk, ht] at h
    · rw [pyOr, if_neg ht]
      exact ⟨[], rfl, rfl⟩
  | jnum q =>
    by_cases ht : jtruthy (J.jnum q)
    · simp [depsOk, ht] at h
    · rw [pyOr, if_neg ht]
      exact ⟨[], rfl, rfl⟩
  | jstr s =>
    by_cases ht : jtruthy (J.jstr s)
    · simp [depsOk, ht] at h
    · rw [pyOr, if_neg ht]
      exact ⟨[], rfl, rfl⟩
  | jobj fs =>
    by_cases ht : jtruthy (J.jobj fs)
    · simp [depsOk, ht] at h
    · rw [pyOr, if_neg ht]
      exact ⟨[], rfl, rfl⟩

/-- The `metadata` value (defaulted to `[]`) is iterable. -/
theorem metaOk_iter {m : J} (h : metaOk m = true) :
    ∃ ms, pyIter (pyOr m (.jarr [])) = .ok ms := by
  cases m with
  | jarr ms =>
    by_cases ht : jtruthy (J.jarr ms)
    · rw [pyOr, if_pos ht]
      exact ⟨ms, rfl⟩
    · rw [pyOr, if_neg ht]
      exact ⟨[], rfl⟩
  | jstr s =>
    by_cases ht : jtruthy (J.jstr s)
    · rw [pyOr, if_pos ht]
      exact ⟨_, rfl⟩
    · rw [pyOr, if_neg ht]
      exact ⟨[], rfl⟩
  | jobj fs =>
    by_cases ht : jtruthy (J.jobj fs)
    · rw [pyOr, if_pos ht]
      exact ⟨_, rfl⟩
    · rw [pyOr, if_neg ht]
      exact ⟨[], rfl⟩
  | jnull => exact ⟨[], rfl⟩
  | jbool b =>
    by_cases ht : jtruthy (J.jbool b)
    · simp [metaOk, ht] at h
    · rw [pyOr, if_neg ht]
      exact ⟨[], rfl⟩
  | jnum q =>
    by_cases ht : jtruthy (J.jnum q)
    · simp [metaOk, ht] at h
    · rw [pyOr, if_neg ht]
      exact ⟨[], rfl⟩

/-- Exhausting the departments generator succeeds on well-shaped elements and
yields only strings. -/
theorem ghDepVals_ok {ds : List J} (h : ds.all depOk = true) :
    ∃ vs, ghDepVals ds = .ok vs ∧ vs.all (fun v => (jStr? v).isSome) = true := by
  induction ds with
  | nil => exact ⟨[], rfl, rfl⟩
  | cons d rest ih =>
    simp only [List.all_cons, Bool.and_eq_true] at h
    obtain ⟨vs, hvs, hall⟩ := ih h.2
    cases d with
    | jobj df =>
      have hd : strOrFalsy ((lookupJ df "name").getD .jnull) = true := h.1
      rw [ghDepVals, bind_ok_congr (rfl :
        jget (J.jobj df) "name" = .ok ((lookupJ df "name").getD .jnull)),
        bind_ok_congr hvs]
      by_cases htv : jtruthy ((lookupJ df "name").getD .jnull)
      · obtain ⟨s, hs⟩ := strOrFalsy_truthy hd htv
        refine ⟨(lookupJ df "name").getD .jnull :: vs, by rw [if_pos htv], ?_⟩
        rw [List.all_cons, hs, hall]
        rfl
      · exact ⟨vs, by rw [if_neg htv], hall⟩
    | jnull => exact Bool.noConfusion h.1
    | jbool b => exact Bool.noConfusion h.1
    | jnum q => exact Bool.noConfusion h.1
    | jstr s => exact Bool.noConfusion h.1
    | jarr xs => exact Bool.noConfusion h.1

/-- `", ".join` succeeds on a list of strings. -/
theorem joinableStrs_isOk {vs : List J}
    (h : vs.all (fun v => (jStr? v).isSome) = true) :
    (joinableStrs vs).isOk = true := by
  induction vs with
  | nil => rfl
  | cons v rest ih =>
    simp only [List.all_cons, Bool.and_eq_true] at h
    obtain ⟨s, hs⟩ := Option.isSome_iff_exists.mp h.1
    rw [joinableStrs, hs]
    obtain ⟨ss, hss⟩ := exists_of_isOk (ih h.2)
    refine bind_isOk hss ?_
    rfl

/-- One Greenhouse job of a well-formed shape maps without raising. -/
theorem ghItem_isOk {ext : Ext} {c : String} {item : J}
    (h : ghItemOk item = true) : (ghItem ext c item).isOk = true := by
  cases item with
  | jobj fs =>
    rw [ghItemOk] at h
    simp only [Bool.and_eq_true] at h
    obtain ⟨⟨⟨⟨⟨⟨⟨htitle, hloc⟩, hdeps⟩, hmeta⟩, hurl⟩, hupd⟩, hcre⟩, hcontent⟩ := h
    rw [ghItem]
    refine bind_isOk rfl ?_
    obtain ⟨title, ht⟩ := exists_of_isOk (pyNorm_isOk htitle)
    refine bind_isOk ht ?_
    refine bind_isOk rfl ?_
    obtain ⟨vname, hvname, hvname2⟩ := locObjOk_field hloc
    refine bind_isOk hvname ?_
    obtain ⟨loc, hl⟩ := exists_of_isOk (pyNorm_isOk hvname2)
    refine bind_isOk hl ?_
    refine bind_isOk rfl ?_
    obtain ⟨ds, hds, hds2⟩ := depsOk_iter hdeps
    refine bind_isOk hds ?_
    obtain ⟨vs, hvs, hvs2⟩ := ghDepVals_ok hds2
    refine bind_isOk hvs ?_
    obtain ⟨names, hnames⟩ := exists_of_isOk (joinableStrs_isOk hvs2)
    refine bind_isOk hnames ?_
    refine bind_isOk rfl ?_
    obtain ⟨ms, hms⟩ := metaOk_iter hmeta
    refine bind_isOk hms ?_
    refine bind_isOk rfl ?_
    obtain ⟨url, hu⟩ := exists_of_isOk (jAsStr_or_isOk hurl)
    refine bind_isOk hu ?_
    refine bind_isOk rfl ?_
    refine bind_isOk rfl ?_
    obtain ⟨posted, hp⟩ := exists_of_isOk (jAsStr_orChain_isOk hupd hcre)
    refine bind_isOk hp ?_
    refine bind_isOk rfl ?_
    obtain ⟨stripped, hst⟩ := exists_of_isOk
      (strip_html_isOk (x := pyOr ((lookupJ fs "content").getD .jnull) (.jstr ""))
        (strOrFalsy_pyOr hcontent rfl))
    refine bind_isOk hst ?_
    rfl
  | jnull => simp [ghItemOk] at h
  | jbool b => simp [ghItemOk] at h
  | jnum q => simp [ghItemOk] at h
  | jstr s => simp [ghItemOk] at h
  | jarr xs => simp [ghItemOk] at h

/-- C2 counterexample: the `try` of lines 164-169 / 217-222 only wraps the
HTTP call and the JSON decode; the mapping loops run outside it.  A JSON
object where Lever's list is expected makes `item.get` raise
`AttributeError` on a string key; a JSON list where Greenhouse's object is
expected makes `data.get("jobs", [])` raise `AttributeError`.  Both
exceptions propagate to the caller, so "never raise" is false. -/
theorem C2_counterexample :
    fetch_lever extId "acme" none (some (J.jobj [("jobs", J.jnull)])) =
      .error "AttributeError: get on non-dict" ∧
    fetch_greenhouse extId "acme" none (some (J.jarr [J.jobj []])) =
      .error "AttributeError: get on non-dict" := by
  constructor
  · with_unfolding_all rfl
  · with_unfolding_all rfl

/-- C2 (amended): the adapters never raise for network errors, timeouts,
non-200 statuses, or JSON-decode failures — all of those return `[]` — and a
well-shaped payload is mapped without raising; but a payload of unexpected
shape reached by the mapping code (outside the `try`) can raise an exception
to the caller. -/
theorem C2_adapter_failure_semantics :
    (∀ (ext : Ext) (c : String),
      fetch_lever ext c none none = .ok [] ∧
      fetch_greenhouse ext c none none = .ok []) ∧
    (∀ (ext : Ext) (c : String) (data : J), leverDataOk data = true →
      (fetch_lever ext c none (some data)).isOk = true) ∧
    (∀ (ext : Ext) (c : String) (data : J), ghDataOk data = true →
      (fetch_greenhouse ext c none (some data)).isOk = true) := by
  refine ⟨?_, ?_, ?_⟩
  · intro ext c
    constructor
    · rw [fetch_lever.eq_def]
      split
      · rfl
      · rfl
    · rw [fetch_greenhouse.eq_def]
      split
      · rfl
      · rfl
  · intro ext c data h
    rw [fetch_lever.eq_def]
    split
    · rfl
    · cases data with
      | jarr items =>
        refine bind_isOk rfl ?_
        exact mapItems_isOk fun x hx =>
          leverItem_isOk (List.all_eq_true.mp h x hx)
      | jnull => simp [leverDataOk] at h
      | jbool b => simp [leverDataOk] at h
      | jnum q => simp [leverDataOk] at h
      | jstr s => simp [leverDataOk] at h
      | jobj fs => simp [leverDataOk] at h
  · intro ext c data h
    rw [fetch_greenhouse.eq_def]
    split
    · rfl
    · cases data with
      | jobj fs =>
        rw [ghDataOk] at h
        refine bind_isOk rfl ?_
        cases hjobs : (lookupJ fs "jobs").getD (.jarr []) with
        | jarr items =>
          rw [hjobs] at h
          refine bind_isOk rfl ?_
          exact mapItems_isOk fun x hx =>
            ghItem_isOk (List.all_eq_true.mp h x hx)
        | jnull => rw [hjobs] at h; exact Bool.noConfusion h
        | jbool b => rw [hjobs] at h; exact Bool.noConfusion h
        | jnum q => rw [hjobs] at h; exact Bool.noConfusion h
        | jstr s => rw [hjobs] at h; exact Bool.noConfusion h
        | jobj fs2 => rw [hjobs] at h; exact Bool.noConfusion h
      | jnull => simp [ghDataOk] at h
      | jbool b => simp [ghDataOk] at h
      | jnum q => simp [ghDataOk] at h
      | jstr s => simp [ghDataOk] at h
      | jarr xs => simp [ghDataOk] at h

/-- Witness for `C2_adapter_failure_semantics` at well-shaped payloads. -/
theorem C2_adapter_failure_semantics_witness :
    leverDataOk (J.jarr [J.jobj []]) = true ∧
    (fetch_lever extId "acme" none (some (J.jarr [J.jobj []]))).isOk = true ∧
    ghDataOk (J.jobj [("jobs", J.jarr [J.jobj []])]) = true ∧
    (fetch_greenhouse extId "acme" none
      (some (J.jobj [("jobs", J.jarr [J.jobj []])]))).isOk = true :=
  ⟨by decide,
   C2_adapter_failure_semantics.2.1 extId "acme" (J.jarr [J.jobj []]) (by decide),
   by decide,
   C2_adapter_failure_semantics.2.2 extId "acme"
     (J.jobj [("jobs", J.jarr [J.jobj []])]) (by decide)⟩

/-! ### Compensation extraction (C4) -/

/-- C4: `extract_compensation_annual` scans in the priority order hourly
range, single hourly value, annual range, single annual value, then bare
type keyword; hourly amounts are annualized by multiplying by 2080; a type
keyword with no numeric match yields `(null, null, type)`; no match yields
`(null, null, null)`; and the three concrete examples evaluate as the spec
states. -/
theorem C4_extract_compensation :
    extract_compensation_annual "$60-$80/hr" =
      (some 124800, some 166400, some "hourly") ∧
    extract_compensation_annual "$120,000 - $150,000/yr" =
      (some 120000, some 150000, some "salary") ∧
    extract_compensation_annual "great team culture" = (none, none, none) ∧
    HOURS_PER_YEAR = 2080 ∧
    (∀ (t : String) (lo hi : ℚ),
      stageHr t.data.length t.data = some (lo, hi) →
      extract_compensation_annual t =
        (some (lo * 2080), some (hi * 2080), some "hourly")) ∧
    (∀ (t : String) (v : ℚ),
      stageHr t.data.length t.data = none →
      stageHr1 t.data.length t.data = some v →
      extract_compensation_annual t =
        (some (v * 2080), some (v * 2080), some "hourly")) ∧
    (∀ (t : String) (lo hi : ℚ),
      stageHr t.data.length t.data = none →
      stageHr1 t.data.length t.data = none →
      stageYr t.data.length t.data = some (lo, hi) →
      extract_compensation_annual t = (some lo, some hi, some "salary")) ∧
    (∀ (t : String) (v : ℚ),
      stageHr t.data.length t.data = none →
      stageHr1 t.data.length t.data = none →
      stageYr t.data.length t.data = none →
      stageYr1 t.data.length t.data = some v →
      extract_compensation_annual t = (some v, some v, some "salary")) ∧
    (∀ t : String,
      stageHr t.data.length t.data = none →
      stageHr1 t.data.length t.data = none →
      stageYr t.data.length t.data = none →
      stageYr1 t.data.length t.data = none →
      kwHourly t.data = true →
      extract_compensation_annual t = (none, none, some "hourly")) ∧
    (∀ t : String,
      stageHr t.data.length t.data = none →
      stageHr1 t.data.length t.data = none →
      stageYr t.data.length t.data = none →
      stageYr1 t.data.length t.data = none →
      kwHourly t.data = false → kwSalary t.data = true →
      extract_compensation_annual t = (none, none, some "salary")) ∧
    (∀ t : String,
      stageHr t.data.length t.data = none →
      stageHr1 t.data.length t.data = none →
      stageYr t.data.length t.data = none →
      stageYr1 t.data.length t.data = none →
      kwHourly t.data = false → kwSalary t.data = false →
      extract_compensation_annual t = (none, none, none)) := by
  refine ⟨by with_unfolding_all rfl, by with_unfolding_all rfl,
    by with_unfolding_all rfl, rfl, ?_, ?_, ?_, ?_, ?_, ?_, ?_⟩
  · intro t lo hi h
    simp only [extract_compensation_annual, h]
    rfl
  · intro t v h1 h2
    simp only [extract_compensation_annual, h1, h2]
    rfl
  · intro t lo hi h1 h2 h3
    simp only [extract_compensation_annual, h1, h2, h3]
  · intro t v h1 h2 h3 h4
    simp only [extract_compensation_annual, h1, h2, h3, h4]
  · intro t h1 h2 h3 h4 hk
    simp only [extract_compensation_annual, h1, h2, h3, h4, hk, if_true]
  · intro t h1 h2 h3 h4 hk hs
    simp only [extract_compensation_annual, h1, h2, h3, h4, hk, hs,
      Bool.false_eq_true, if_false, if_true]
  · intro t h1 h2 h3 h4 hk hs
    simp only [extract_compensation_annual, h1, h2, h3, h4, hk, hs,
      Bool.false_eq_true, if_false]

/-- Witness for `C4_extract_compensation`: the hourly-range stage fires on
the spec's example and its numbers are annualized by 2080. -/
theorem C4_extract_compensation_witness :
    extract_compensation_annual "$60-$80/hr" =
      (some ((60 : ℚ) * 2080), some ((80 : ℚ) * 2080), some "hourly") :=
  C4_extract_compensation.2.2.2.2.1 "$60-$80/hr" 60 80 (by with_unfolding_all rfl)

/-! ### Ranking (C8) -/

/-- The ranking comparison is total. -/
theorem key_le_total (a b : Job) : (key_le a b || key_le b a) = true := by
  rw [key_le, key_le]
  simp only [Bool.or_eq_true, decide_eq_true_eq]
  rcases lt_trichotomy (rank_key a).1 (rank_key b).1 with h | h | h
  · exact Or.inl (Or.inl h)
  · rcases lt_trichotomy (rank_key a).2.1 (rank_key b).2.1 with h2 | h2 | h2
    · exact Or.inl (Or.inr ⟨h, Or.inl h2⟩)
    · rcases le_total (rank_key a).2.2 (rank_key b).2.2 with h3 | h3
      · exact Or.inl (Or.inr ⟨h, Or.inr ⟨h2, h3⟩⟩)
      · exact Or.inr (Or.inr ⟨h.symm, Or.inr ⟨h2.symm, h3⟩⟩)
    · exact Or.inr (Or.inr ⟨h.symm, Or.inl h2⟩)
  · exact Or.inr (Or.inl h)

/-- The ranking comparison is transitive. -/
theorem key_le_trans (a b c : Job) (hab : key_le a b = true)
    (hbc : key_le b c = true) : key_le a c = true := by
  rw [key_le] at hab hbc ⊢
  simp only [decide_eq_true_eq] at hab hbc ⊢
  rcases hab with h1 | ⟨h1, h1'⟩
  · rcases hbc with h2 | ⟨h2, h2'⟩
    · exact Or.inl (lt_trans h1 h2)
    · exact Or.inl (lt_of_lt_of_eq h1 h2)
  · rcases hbc with h2 | ⟨h2, h2'⟩
    · exact Or.inl (lt_of_eq_of_lt h1 h2)
    · refine Or.inr ⟨h1.trans h2, ?_⟩
      rcases h1' with g1 | ⟨g1, g1'⟩
      · rcases h2' with g2 | ⟨g2, g2'⟩
        · exact Or.inl (lt_trans g1 g2)
        · exact Or.inl (lt_of_lt_of_eq g1 g2)
      · rcases h2' with g2 | ⟨g2, g2'⟩
        · exact Or.inl (lt_of_eq_of_lt g1 g2)
        · exact Or.inr ⟨g1.trans g2, le_trans g1' g2'⟩

/-- C8: `apply_filters` orders the surviving jobs ascending by the key
`(-(known minimum compensation, unknown as 0), posted string, company)` —
i.e. descending by known minimum compensation first — the output is a
permutation of the survivors, the sort is stable (a pair in key order keeps
its relative input order), and the whole pipeline is a pure function, so a
fixed input has exactly one output order. -/
theorem C8_ranking (env : GeoEnv) (ext : Ext) (p : SearchParams)
    (jobs : List Job) :
    List.Pairwise (fun a b => key_le a b = true) (apply_filters env ext p jobs) ∧
    List.Perm (apply_filters env ext p jobs) (jobs.filter (keep_job env ext p)) ∧
    (∀ a b : Job, key_le a b = true →
      List.Sublist [a, b] (jobs.filter (keep_job env ext p)) →
      List.Sublist [a, b] (apply_filters env ext p jobs)) ∧
    (∀ j : Job, rank_key j = (-(j.comp_annual_min.getD 0), j.posted_at, j.company)) := by
  refine ⟨?_, ?_, ?_, fun _ => rfl⟩
  · exact List.sorted_mergeSort key_le_trans key_le_total
      (jobs.filter (keep_job env ext p))
  · exact List.mergeSort_perm (jobs.filter (keep_job env ext p)) key_le
  · intro a b hab hsub
    exact List.pair_sublist_mergeSort key_le_trans key_le_total hab hsub



/-- Witness for `C8_ranking`: two equal-key jobs keep their input order. -/
theorem C8_ranking_witness :
    List.Sublist [jobA, jobB] (apply_filters geoOff extId pPlain [jobA, jobB]) :=
  have hf : List.filter (keep_job geoOff extId pPlain) [jobA, jobB] = [jobA, jobB] := by
    with_unfolding_all rfl
  (C8_ranking geoOff extId pPlain [jobA, jobB]).2.2.1 jobA jobB
    (by with_unfolding_all rfl)
    (by rw [hf])

end ISDJobs
